import Mathlib

/-!
Shallow embedding of the rate-limit / lockout guards of
`src/utils/security.py` (class `SecurityManager`) and of the dispatcher
pipeline in `src/utils/spam_middleware.py` (`SpamProtectionMiddleware`).

Modelling conventions:
* `datetime` values become `Nat` seconds; `timedelta(seconds=d)` becomes
  adding `d`; `(a - b).seconds` for a non-negative difference becomes
  `(a - b) % 86400` (Python's `timedelta.seconds` is the seconds part of
  the difference, excluding whole days).
* Python dicts keyed by user id become total functions
  `Nat → Option Rec`; the key being absent is `none`.
* Counters are `Int` (Python ints), so non-negativity is a real property.
* Each mutating method becomes a pure function returning the verdict
  (when any) together with the new map.
-/

namespace BookclubSecurity

/-- Point update of a user-keyed map, mirroring `dict[key] = value`. -/
def upd {α : Type} (st : Nat → Option α) (k : Nat) (v : α) : Nat → Option α :=
  fun k' => if k' = k then some v else st k'

/-- One entry of `SecurityManager._login_attempts`:
`{'count': ..., 'last_attempt': ..., 'locked_until': ...?}` where the
`locked_until` key may be absent. -/
structure LoginRec where
  count : Int
  lastAttempt : Option Nat
  lockedUntil : Option Nat
deriving DecidableEq, Repr

/-- One entry of `SecurityManager._spam_protection`:
`{'message_count', 'first_message', 'last_message', 'blocked_until'}`. -/
structure SpamRec where
  messageCount : Int
  firstMessage : Nat
  lastMessage : Nat
  blockedUntil : Option Nat
deriving DecidableEq, Repr

/-- The threshold/branch part of `SecurityManager.check_login_attempts`
(source lines 88–95), reached once any expired lockout has been removed:
if `count >= max_attempts` the user is locked for `lockout_duration`
seconds and the check fails, otherwise it passes with no state change
beyond `a` replacing the stored record. -/
def loginThresholdStep (st : Nat → Option LoginRec) (userId : Nat)
    (maxAttempts : Int) (lockoutDuration : Nat) (now : Nat) (a : LoginRec) :
    Bool × (Nat → Option LoginRec) :=
  if a.count ≥ maxAttempts then
    (false, upd st userId { a with lockedUntil := some (now + lockoutDuration) })
  else
    (true, upd st userId a)

/-- `SecurityManager.check_login_attempts` (source lines 68–95).
Returns the verdict and the updated `_login_attempts` map. -/
def check_login_attempts (st : Nat → Option LoginRec) (userId : Nat)
    (maxAttempts : Int) (lockoutDuration : Nat) (now : Nat) :
    Bool × (Nat → Option LoginRec) :=
  match st userId with
  | none => (true, st)
  | some a =>
    match a.lockedUntil with
    | some lu =>
      if now < lu then
        (false, st)
      else
        loginThresholdStep st userId maxAttempts lockoutDuration now
          { a with lockedUntil := none }
    | none =>
      loginThresholdStep st userId maxAttempts lockoutDuration now a

/-- `SecurityManager.record_login_attempt` (source lines 97–113). -/
def record_login_attempt (st : Nat → Option LoginRec) (userId : Nat)
    (success : Bool) (now : Nat) : Nat → Option LoginRec :=
  let a := (st userId).getD { count := 0, lastAttempt := none, lockedUntil := none }
  let a' := if success then { a with count := 0, lockedUntil := none }
            else { a with count := a.count + 1 }
  upd st userId { a' with lastAttempt := some now }

/-- A fresh `_spam_protection` entry as created at source lines 186–191
and 254–259. -/
def freshSpamRec (now : Nat) : SpamRec :=
  { messageCount := 0, firstMessage := now, lastMessage := now, blockedUntil := none }

/-- The tiered-threshold part of `SecurityManager._check_banned_user_spam`
(source lines 212–244), reached once any active block has been handled:
the `if / elif / elif / else` ladder on `time_diff`, followed by the
increment of `message_count` and `last_message` on the allow path. -/
def spamTierStep (st : Nat → Option SpamRec) (userId : Nat) (now : Nat)
    (p : SpamRec) : Bool × (Nat → Option SpamRec) :=
  let timeDiff := now - p.firstMessage
  if timeDiff ≤ 60 then
    if p.messageCount ≥ 3 then
      (false, upd st userId { p with blockedUntil := some (now + 300) })
    else
      (true, upd st userId { p with messageCount := p.messageCount + 1, lastMessage := now })
  else if timeDiff ≤ 3600 then
    if p.messageCount ≥ 10 then
      (false, upd st userId { p with blockedUntil := some (now + 3600) })
    else
      (true, upd st userId { p with messageCount := p.messageCount + 1, lastMessage := now })
  else if timeDiff ≤ 86400 then
    if p.messageCount ≥ 30 then
      (false, upd st userId { p with blockedUntil := some (now + 21600) })
    else
      (true, upd st userId { p with messageCount := p.messageCount + 1, lastMessage := now })
  else
    (true, upd st userId { p with messageCount := 0 + 1, firstMessage := now, lastMessage := now })

/-- `SecurityManager._check_banned_user_spam` (source lines 173–244).
Returns the verdict and the updated `_spam_protection` map. -/
def check_banned_user_spam (st : Nat → Option SpamRec) (userId : Nat)
    (now : Nat) : Bool × (Nat → Option SpamRec) :=
  let p := (st userId).getD (freshSpamRec now)
  match p.blockedUntil with
  | some b =>
    if now < b then
      (false, upd st userId p)
    else
      spamTierStep st userId now
        { p with blockedUntil := none, messageCount := 0, firstMessage := now }
  | none =>
    spamTierStep st userId now p

/-- `SecurityManager.record_banned_user_message` (source lines 246–265). -/
def record_banned_user_message (st : Nat → Option SpamRec) (userId : Nat)
    (now : Nat) : Nat → Option SpamRec :=
  let p := (st userId).getD (freshSpamRec now)
  upd st userId { p with messageCount := p.messageCount + 1, lastMessage := now }

/-- Result of `SecurityManager.get_spam_protection_stats`. -/
structure SpamStats where
  messageCount : Int
  isBlocked : Bool
  blockedUntil : Option Nat
  remainingTime : Nat
deriving DecidableEq, Repr

/-- `SecurityManager.get_spam_protection_stats` (source lines 267–300).
Read-only: takes the map, returns the snapshot. -/
def get_spam_protection_stats (st : Nat → Option SpamRec) (userId : Nat)
    (now : Nat) : SpamStats :=
  match st userId with
  | none => { messageCount := 0, isBlocked := false, blockedUntil := none, remainingTime := 0 }
  | some p =>
    match p.blockedUntil with
    | some b =>
      if now < b then
        { messageCount := p.messageCount, isBlocked := true,
          blockedUntil := some b, remainingTime := (b - now) % 86400 }
      else
        { messageCount := p.messageCount, isBlocked := false,
          blockedUntil := some b, remainingTime := 0 }
    | none =>
      { messageCount := p.messageCount, isBlocked := false,
        blockedUntil := none, remainingTime := 0 }

/-- One inbound event from a banned identity as the dispatcher handles it
(`SpamProtectionMiddleware.__call__`, `src/utils/spam_middleware.py`
lines 57–66): `check_spam_protection` runs first (for status `banned`
this is `_check_banned_user_spam`); when it allows the event,
`record_banned_user_message` runs as well. -/
def processBannedMessage (st : Nat → Option SpamRec) (userId : Nat)
    (now : Nat) : Bool × (Nat → Option SpamRec) :=
  let r := check_banned_user_spam st userId now
  if r.1 then (true, record_banned_user_message r.2 userId now)
  else (false, r.2)

/-- A sequence of inbound banned-identity events at the given times,
stopping at the first denied event; returns whether all were allowed
together with the final map. -/
def runBannedMessages (st : Nat → Option SpamRec) (userId : Nat) :
    List Nat → Bool × (Nat → Option SpamRec)
  | [] => (true, st)
  | t :: ts =>
    let r := processBannedMessage st userId t
    if r.1 then runBannedMessages r.2 userId ts
    else (false, r.2)

/-- The empty login-attempts map. -/
def emptyLogin : Nat → Option LoginRec := fun _ => none

/-- The empty spam-protection map. -/
def emptySpam : Nat → Option SpamRec := fun _ => none

end BookclubSecurity

namespace BookclubSecurity

theorem upd_self {α : Type} (st : Nat → Option α) (k : Nat) (v : α) :
    upd st k v k = some v := by
  simp [upd]

theorem upd_of_ne {α : Type} (st : Nat → Option α) (k : Nat) (v : α)
    (k' : Nat) (h : k' ≠ k) : upd st k v k' = st k' := by
  simp [upd, h]

/-- C1. The claim says that when a login lockout has expired
(`now >= lockedUntil`) the check clears the lockout, resets the count to
0 and returns `true`; in particular, after 3 failed attempts recorded at
time 0 the check at `t + lockoutDuration = 900` should return `true`
with count 0. The code instead keeps `count = 3` when the lockout
expires, so the threshold branch immediately re-locks until 1800 and the
check returns `false`: the lockout never clears. This theorem evaluates
the embedded code on that failing input. -/
theorem login_lockout_never_clears :
    (check_login_attempts
      (record_login_attempt (record_login_attempt
        (record_login_attempt emptyLogin 1 false 0) 1 false 0) 1 false 0)
      1 3 900 0).1 = false ∧
    (check_login_attempts
      ((check_login_attempts
        (record_login_attempt (record_login_attempt
          (record_login_attempt emptyLogin 1 false 0) 1 false 0) 1 false 0)
        1 3 900 0).2) 1 3 900 900).1 = false ∧
    ((check_login_attempts
      ((check_login_attempts
        (record_login_attempt (record_login_attempt
          (record_login_attempt emptyLogin 1 false 0) 1 false 0) 1 false 0)
        1 3 900 0).2) 1 3 900 900).2) 1 =
      some { count := 3, lastAttempt := some 0, lockedUntil := some 1800 } := by
  decide

/-- C2. Starting from a fresh record, three inbound banned-identity
messages at times 0, 5, 10 (all within 60 seconds of the window start):
the first two are allowed, the third is denied, and the stats snapshot
taken at time 10 reports the identity blocked with 300 seconds
(5 minutes) remaining. -/
theorem spam_third_message_blocks :
    (runBannedMessages emptySpam 7 [0, 5]).1 = true ∧
    (runBannedMessages emptySpam 7 [0, 5, 10]).1 = false ∧
    get_spam_protection_stats (runBannedMessages emptySpam 7 [0, 5, 10]).2 7 10 =
      { messageCount := 4, isBlocked := true, blockedUntil := some 310,
        remainingTime := 300 } := by
  decide

/-- C5. A never-seen identity is allowed by both the login-attempt check
and the banned-user spam check. -/
theorem fresh_identity_allowed
    (stL : Nat → Option LoginRec) (stS : Nat → Option SpamRec)
    (uid : Nat) (maxA : Int) (dur now : Nat)
    (hL : stL uid = none) (hS : stS uid = none) :
    (check_login_attempts stL uid maxA dur now).1 = true ∧
    (check_banned_user_spam stS uid now).1 = true := by
  constructor
  · simp [check_login_attempts, hL]
  · simp [check_banned_user_spam, hS, freshSpamRec, spamTierStep]

theorem fresh_identity_allowed_witness :
    (check_login_attempts emptyLogin 1 3 900 0).1 = true ∧
    (check_banned_user_spam emptySpam 1 0).1 = true :=
  fresh_identity_allowed emptyLogin emptySpam 1 3 900 0 rfl rfl

/-- C6. While a lockout is active (`now < lockedUntil`) both checks
return `false`; the login check leaves the whole map unchanged, and the
spam check leaves the identity's stored record unchanged in every
field. -/
theorem active_lockout_denies_and_preserves
    (stL : Nat → Option LoginRec) (stS : Nat → Option SpamRec) (uid : Nat)
    (maxA : Int) (dur now : Nat) (a : LoginRec) (p : SpamRec) (bL bS : Nat)
    (hL : stL uid = some a) (haL : a.lockedUntil = some bL) (hnL : now < bL)
    (hS : stS uid = some p) (haS : p.blockedUntil = some bS) (hnS : now < bS) :
    check_login_attempts stL uid maxA dur now = (false, stL) ∧
    (check_banned_user_spam stS uid now).1 = false ∧
    (check_banned_user_spam stS uid now).2 uid = some p := by
  refine ⟨?_, ?_, ?_⟩
  · simp [check_login_attempts, hL, haL, hnL]
  · simp [check_banned_user_spam, hS, haS, hnS]
  · simp [check_banned_user_spam, hS, haS, hnS, upd_self]

theorem active_lockout_witness :
    check_login_attempts
        (upd emptyLogin 1 { count := 3, lastAttempt := some 0, lockedUntil := some 900 })
        1 3 900 10 =
      (false, upd emptyLogin 1 { count := 3, lastAttempt := some 0, lockedUntil := some 900 }) ∧
    (check_banned_user_spam
        (upd emptySpam 1 { messageCount := 4, firstMessage := 0, lastMessage := 5, blockedUntil := some 300 }) 1 10).1 = false ∧
    (check_banned_user_spam
        (upd emptySpam 1 { messageCount := 4, firstMessage := 0, lastMessage := 5, blockedUntil := some 300 }) 1 10).2 1 =
      some { messageCount := 4, firstMessage := 0, lastMessage := 5, blockedUntil := some 300 } :=
  active_lockout_denies_and_preserves
    (upd emptyLogin 1 { count := 3, lastAttempt := some 0, lockedUntil := some 900 })
    (upd emptySpam 1 { messageCount := 4, firstMessage := 0, lastMessage := 5, blockedUntil := some 300 })
    1 3 900 10 _ _ 900 300 (upd_self _ _ _) rfl (by decide)
    (upd_self _ _ _) rfl (by decide)

/-- C7. Recording a successful login attempt stores count 0 and no
lockout, regardless of the prior record; a subsequent check (with a
positive attempt limit) then allows the identity. -/
theorem success_resets_login
    (st : Nat → Option LoginRec) (uid : Nat) (now : Nat)
    (maxA : Int) (dur now2 : Nat) (hmax : 0 < maxA) :
    record_login_attempt st uid true now uid =
      some { count := 0, lastAttempt := some now, lockedUntil := none } ∧
    (check_login_attempts (record_login_attempt st uid true now)
      uid maxA dur now2).1 = true := by
  have hrec : record_login_attempt st uid true now uid =
      some { count := 0, lastAttempt := some now, lockedUntil := none } := by
    simp [record_login_attempt, upd_self]
  refine ⟨hrec, ?_⟩
  simp [check_login_attempts, hrec, loginThresholdStep]
  rw [if_neg (by omega)]

theorem success_resets_login_witness :
    record_login_attempt
        (upd emptyLogin 1 { count := 2, lastAttempt := some 5, lockedUntil := some 900 })
        1 true 6 1 =
      some { count := 0, lastAttempt := some 6, lockedUntil := none } ∧
    (check_login_attempts
      (record_login_attempt
        (upd emptyLogin 1 { count := 2, lastAttempt := some 5, lockedUntil := some 900 })
        1 true 6) 1 3 900 7).1 = true :=
  success_resets_login
    (upd emptyLogin 1 { count := 2, lastAttempt := some 5, lockedUntil := some 900 })
    1 6 3 900 7 (by decide)

/-- C8. If an identity is not blocked and more than 86400 seconds have
elapsed since its window start, the next spam-guard call resets the
window: it stores count 1 (the new message counted), window start `now`,
no lockout, and allows the message. -/
theorem spam_window_rollover
    (st : Nat → Option SpamRec) (uid now : Nat) (p : SpamRec)
    (h : st uid = some p) (hb : p.blockedUntil = none)
    (hroll : p.firstMessage + 86400 < now) :
    (check_banned_user_spam st uid now).1 = true ∧
    (check_banned_user_spam st uid now).2 uid =
      some { messageCount := 1, firstMessage := now, lastMessage := now, blockedUntil := none } := by
  have hd1 : ¬ (now - p.firstMessage ≤ 60) := by omega
  have hd2 : ¬ (now - p.firstMessage ≤ 3600) := by omega
  have hd3 : ¬ (now - p.firstMessage ≤ 86400) := by omega
  constructor
  · simp [check_banned_user_spam, h, hb, spamTierStep, hd1, hd2, hd3]
  · simp [check_banned_user_spam, h, hb, spamTierStep, hd1, hd2, hd3, upd_self]

theorem spam_window_rollover_witness :
    (check_banned_user_spam
      (upd emptySpam 3 { messageCount := 5, firstMessage := 0, lastMessage := 100, blockedUntil := none }) 3 86401).1 = true ∧
    (check_banned_user_spam
      (upd emptySpam 3 { messageCount := 5, firstMessage := 0, lastMessage := 100, blockedUntil := none }) 3 86401).2 3 =
      some { messageCount := 1, firstMessage := 86401, lastMessage := 86401, blockedUntil := none } :=
  spam_window_rollover
    (upd emptySpam 3 { messageCount := 5, firstMessage := 0, lastMessage := 100, blockedUntil := none })
    3 86401 _ (upd_self _ _ _) rfl (by decide)

end BookclubSecurity

namespace BookclubSecurity

theorem loginThresholdStep_frame (st : Nat → Option LoginRec) (uid : Nat)
    (maxA : Int) (dur now : Nat) (a : LoginRec) (k : Nat) (hk : k ≠ uid) :
    (loginThresholdStep st uid maxA dur now a).2 k = st k := by
  unfold loginThresholdStep
  split <;> simp [upd_of_ne _ _ _ _ hk]

theorem check_login_frame (st : Nat → Option LoginRec) (uid : Nat)
    (maxA : Int) (dur now : Nat) (k : Nat) (hk : k ≠ uid) :
    (check_login_attempts st uid maxA dur now).2 k = st k := by
  unfold check_login_attempts
  split
  · rfl
  · split
    · split
      · rfl
      · exact loginThresholdStep_frame _ _ _ _ _ _ _ hk
    · exact loginThresholdStep_frame _ _ _ _ _ _ _ hk

theorem record_login_frame (st : Nat → Option LoginRec) (uid : Nat)
    (success : Bool) (now : Nat) (k : Nat) (hk : k ≠ uid) :
    record_login_attempt st uid success now k = st k := by
  unfold record_login_attempt
  exact upd_of_ne _ _ _ _ hk

theorem spamTierStep_frame (st : Nat → Option SpamRec) (uid now : Nat)
    (p : SpamRec) (k : Nat) (hk : k ≠ uid) :
    (spamTierStep st uid now p).2 k = st k := by
  simp only [spamTierStep]
  split_ifs <;> simp [upd_of_ne _ _ _ _ hk]

theorem check_spam_frame (st : Nat → Option SpamRec) (uid now : Nat)
    (k : Nat) (hk : k ≠ uid) :
    (check_banned_user_spam st uid now).2 k = st k := by
  rcases hb : ((st uid).getD (freshSpamRec now)).blockedUntil with _ | b
  · simp only [check_banned_user_spam, hb]
    exact spamTierStep_frame _ _ _ _ _ hk
  · simp only [check_banned_user_spam, hb]
    split
    · simp [upd_of_ne _ _ _ _ hk]
    · exact spamTierStep_frame _ _ _ _ _ hk

theorem record_spam_frame (st : Nat → Option SpamRec) (uid now : Nat)
    (k : Nat) (hk : k ≠ uid) :
    record_banned_user_message st uid now k = st k := by
  unfold record_banned_user_message
  exact upd_of_ne _ _ _ _ hk

/-- C10. Any guard operation applied to identity `A` leaves the stored
record of any other identity `B` unchanged: the login check, the login
record call, the banned-user spam check, the banned-user record call,
and the full dispatcher pipeline step. (`get_spam_protection_stats` is
embedded as a pure read and returns no map at all.) -/
theorem disjoint_identities_independent
    (stL : Nat → Option LoginRec) (stS : Nat → Option SpamRec)
    (A B : Nat) (hBA : B ≠ A) (maxA : Int) (dur now : Nat) (success : Bool) :
    (check_login_attempts stL A maxA dur now).2 B = stL B ∧
    record_login_attempt stL A success now B = stL B ∧
    (check_banned_user_spam stS A now).2 B = stS B ∧
    record_banned_user_message stS A now B = stS B ∧
    (processBannedMessage stS A now).2 B = stS B := by
  refine ⟨check_login_frame _ _ _ _ _ _ hBA, record_login_frame _ _ _ _ _ hBA,
    check_spam_frame _ _ _ _ hBA, record_spam_frame _ _ _ _ hBA, ?_⟩
  simp only [processBannedMessage]
  by_cases hc : (check_banned_user_spam stS A now).1
  · simp only [hc, if_true]
    rw [record_spam_frame _ _ _ _ hBA]
    exact check_spam_frame _ _ _ _ hBA
  · simp only [hc, if_false, Bool.false_eq_true]
    exact check_spam_frame _ _ _ _ hBA

theorem disjoint_identities_independent_witness :
    (check_login_attempts emptyLogin 1 3 900 0).2 2 = emptyLogin 2 ∧
    record_login_attempt emptyLogin 1 false 0 2 = emptyLogin 2 ∧
    (check_banned_user_spam emptySpam 1 0).2 2 = emptySpam 2 ∧
    record_banned_user_message emptySpam 1 0 2 = emptySpam 2 ∧
    (processBannedMessage emptySpam 1 0).2 2 = emptySpam 2 :=
  disjoint_identities_independent emptyLogin emptySpam 1 2 (by decide) 3 900 0 false

end BookclubSecurity

namespace BookclubSecurity

/-- C3 counterexample. The claim says an allowing check mutates no state
beyond lazily creating a zero-count record and in particular never
increments the stored count. On the banned-user spam guard this is false
at the very first check: for a never-seen (hence not locked out)
identity the check returns `true` yet stores a record whose count is
already 1, not 0 — the check itself counted the message. -/
theorem spam_check_true_increments_count :
    (check_banned_user_spam emptySpam 5 0).1 = true ∧
    (check_banned_user_spam emptySpam 5 0).2 5 =
      some { messageCount := 1, firstMessage := 0, lastMessage := 0, blockedUntil := none } ∧
    ¬ (check_banned_user_spam emptySpam 5 0).2 5 =
      some { messageCount := 0, firstMessage := 0, lastMessage := 0, blockedUntil := none } := by
  decide

/-- C3 amended. Restricted to the login-attempt guard the claim holds,
and more strongly than stated: a `check_login_attempts` call that
returns `true` for an identity with no pending lockout (no record, or a
record without `locked_until`) changes nothing at all — it does not even
create a record, and in particular never increments the stored count.
(The banned-user spam check, by contrast, increments the stored count on
every allowed call, as the counterexample shows.) -/
theorem login_check_true_no_mutation
    (st : Nat → Option LoginRec) (uid : Nat) (maxA : Int) (dur now : Nat)
    (hnl : ∀ a, st uid = some a → a.lockedUntil = none)
    (htrue : (check_login_attempts st uid maxA dur now).1 = true) :
    (check_login_attempts st uid maxA dur now).2 = st := by
  cases h : st uid with
  | none =>
    simp [check_login_attempts, h]
  | some a =>
    have hl := hnl a h
    by_cases hc : a.count ≥ maxA
    · exfalso
      simp [check_login_attempts, h, hl, loginThresholdStep, hc] at htrue
    · funext k
      by_cases hk : k = uid
      · subst hk
        simp [check_login_attempts, h, hl, loginThresholdStep, hc, upd_self]
      · simp [check_login_attempts, h, hl, loginThresholdStep, hc,
          upd_of_ne _ _ _ _ hk]

theorem login_check_true_no_mutation_witness :
    (check_login_attempts emptyLogin 1 3 900 0).2 = emptyLogin :=
  login_check_true_no_mutation emptyLogin 1 3 900 0
    (fun a h => by simp [emptyLogin] at h) rfl

end BookclubSecurity

namespace BookclubSecurity

/-- C4 counterexample. The claim says every allowed event adds exactly 2
to the stored count, so after `n` allowed events the count is `2n`. When
the second allowed event arrives more than 86400 seconds after the window
start, the spam check resets the window first: after two allowed events
the stored count is 2, not `2 * 2 = 4`. -/
theorem banned_event_after_rollover_not_plus_two :
    (runBannedMessages emptySpam 9 [0, 86401]).1 = true ∧
    (runBannedMessages emptySpam 9 [0, 86401]).2 9 =
      some { messageCount := 2, firstMessage := 86401, lastMessage := 86401, blockedUntil := none } ∧
    (2 : Int) ≠ 2 * 2 := by
  decide

theorem spamTierStep_allow (st : Nat → Option SpamRec) (uid now : Nat)
    (p : SpamRec) (hwin : now - p.firstMessage ≤ 86400)
    (hok : (spamTierStep st uid now p).1 = true) :
    spamTierStep st uid now p =
      (true, upd st uid { p with messageCount := p.messageCount + 1, lastMessage := now }) := by
  simp only [spamTierStep] at hok ⊢
  by_cases h1 : now - p.firstMessage ≤ 60
  · by_cases hc : p.messageCount ≥ 3
    · simp [h1, hc] at hok
    · simp [h1, hc]
  · by_cases h2 : now - p.firstMessage ≤ 3600
    · by_cases hc : p.messageCount ≥ 10
      · simp [h1, h2, hc] at hok
      · simp [h1, h2, hc]
    · by_cases hc : p.messageCount ≥ 30
      · simp [h1, h2, hwin, hc] at hok
      · simp [h1, h2, hwin, hc]

theorem processBannedMessage_allowed_step
    (st : Nat → Option SpamRec) (uid now : Nat) (p : SpamRec)
    (h : st uid = some p) (hb : p.blockedUntil = none)
    (hwin : now ≤ p.firstMessage + 86400)
    (hok : (processBannedMessage st uid now).1 = true) :
    (processBannedMessage st uid now).2 uid =
      some { messageCount := p.messageCount + 2, firstMessage := p.firstMessage, lastMessage := now, blockedUntil := none } := by
  have hcheck : check_banned_user_spam st uid now = spamTierStep st uid now p := by
    simp only [check_banned_user_spam, h, Option.getD_some, hb]
  have hok' : (spamTierStep st uid now p).1 = true := by
    by_contra hf
    rw [Bool.not_eq_true] at hf
    simp [processBannedMessage, hcheck, hf] at hok
  have hstep := spamTierStep_allow st uid now p (by omega) hok'
  have h2 : p.messageCount + 1 + 1 = p.messageCount + 2 := by ring
  simp only [processBannedMessage, hcheck, hstep, if_true]
  simp [record_banned_user_message, upd_self, h2, hb]

theorem runBannedMessages_within_window (uid : Nat) (ts : List Nat) :
    ∀ (st : Nat → Option SpamRec) (p : SpamRec),
      st uid = some p → p.blockedUntil = none →
      (∀ t ∈ ts, t ≤ p.firstMessage + 86400) →
      (runBannedMessages st uid ts).1 = true →
      ∃ q, (runBannedMessages st uid ts).2 uid = some q ∧
        q.messageCount = p.messageCount + 2 * ts.length ∧
        q.firstMessage = p.firstMessage ∧ q.blockedUntil = none := by
  induction ts with
  | nil =>
    intro st p h hb _ _
    exact ⟨p, by simpa [runBannedMessages] using h, by simp, rfl, hb⟩
  | cons t ts ih =>
    intro st p h hb hwin hok
    have hok1 : (processBannedMessage st uid t).1 = true := by
      by_contra hf
      rw [Bool.not_eq_true] at hf
      simp [runBannedMessages, hf] at hok
    have hstep := processBannedMessage_allowed_step st uid t p h hb
      (hwin t (List.mem_cons_self t ts)) hok1
    have hrun : runBannedMessages st uid (t :: ts) =
        runBannedMessages (processBannedMessage st uid t).2 uid ts := by
      simp [runBannedMessages, hok1]
    rw [hrun] at hok ⊢
    obtain ⟨q, hq, hcnt, hfst, hbq⟩ := ih (processBannedMessage st uid t).2
      { messageCount := p.messageCount + 2, firstMessage := p.firstMessage,
        lastMessage := t, blockedUntil := none }
      hstep rfl (fun t' ht' => hwin t' (List.mem_cons_of_mem _ ht')) hok
    refine ⟨q, hq, ?_, hfst, hbq⟩
    simp only [List.length_cons] at hcnt ⊢
    push_cast at hcnt ⊢
    omega

/-- C4 amended. In the dispatcher pipeline, an inbound banned-identity
event that is allowed through increments the stored count by exactly 2
(once in the spam check and once in the explicit record call) only while
it arrives within 86400 seconds of the record's window start; an allowed
event after that window instead resets the window and stores count 2.
Consequently, after `n` allowed events whose later events all arrive
within 86400 seconds of the first, the stored count is `2n`. -/
theorem banned_pipeline_count_doubles
    (st : Nat → Option SpamRec) (uid t0 : Nat) (ts : List Nat)
    (h0 : st uid = none)
    (hwin : ∀ t ∈ ts, t ≤ t0 + 86400)
    (hok : (runBannedMessages st uid (t0 :: ts)).1 = true) :
    ∃ q, (runBannedMessages st uid (t0 :: ts)).2 uid = some q ∧
      q.messageCount = 2 * ((t0 :: ts).length : Int) := by
  have hA : (processBannedMessage st uid t0).1 = true := by
    simp [processBannedMessage, check_banned_user_spam, h0, freshSpamRec, spamTierStep]
  have hB : (processBannedMessage st uid t0).2 uid =
      some { messageCount := 2, firstMessage := t0, lastMessage := t0, blockedUntil := none } := by
    simp [processBannedMessage, check_banned_user_spam, h0, freshSpamRec, spamTierStep,
      record_banned_user_message, upd_self]
  have hrun : runBannedMessages st uid (t0 :: ts) =
      runBannedMessages (processBannedMessage st uid t0).2 uid ts := by
    simp [runBannedMessages, hA]
  rw [hrun] at hok ⊢
  obtain ⟨q, hq, hcnt, _, _⟩ := runBannedMessages_within_window uid ts
    (processBannedMessage st uid t0).2
    { messageCount := 2, firstMessage := t0, lastMessage := t0, blockedUntil := none }
    hB rfl (fun t' ht' => hwin t' ht') hok
  refine ⟨q, hq, ?_⟩
  simp only [List.length_cons] at hcnt ⊢
  push_cast at hcnt ⊢
  omega

theorem banned_pipeline_count_doubles_witness :
    ∃ q, (runBannedMessages emptySpam 4 [0, 10]).2 4 = some q ∧
      q.messageCount = 2 * (([0, 10] : List Nat).length : Int) :=
  banned_pipeline_count_doubles emptySpam 4 0 [10] rfl
    (by intro t ht; simp at ht; omega) (by decide)

end BookclubSecurity

namespace BookclubSecurity

/-- All counters stored in a login-attempts map are non-negative. -/
def loginCountsNonneg (st : Nat → Option LoginRec) : Prop :=
  ∀ uid a, st uid = some a → 0 ≤ a.count

/-- All counters stored in a spam-protection map are non-negative. -/
def spamCountsNonneg (st : Nat → Option SpamRec) : Prop :=
  ∀ uid p, st uid = some p → 0 ≤ p.messageCount

/-- Every lockout present in `st'` (the map after an operation run at
time `now`) either was already present in `st` or expires strictly after
`now`. -/
def loginLocksFresh (st st' : Nat → Option LoginRec) (now : Nat) : Prop :=
  ∀ uid a' b, st' uid = some a' → a'.lockedUntil = some b →
    (∃ a, st uid = some a ∧ a.lockedUntil = some b) ∨ now < b

/-- Spam-side analogue of `loginLocksFresh`. -/
def spamLocksFresh (st st' : Nat → Option SpamRec) (now : Nat) : Prop :=
  ∀ uid p' b, st' uid = some p' → p'.blockedUntil = some b →
    (∃ p, st uid = some p ∧ p.blockedUntil = some b) ∨ now < b

theorem check_login_at_uid (st : Nat → Option LoginRec) (uid : Nat)
    (maxA : Int) (dur now : Nat) (a : LoginRec) (h : st uid = some a) :
    ∃ a', (check_login_attempts st uid maxA dur now).2 uid = some a' ∧
      a'.count = a.count ∧
      (a'.lockedUntil = a.lockedUntil ∨ a'.lockedUntil = none ∨
        a'.lockedUntil = some (now + dur)) := by
  rcases hb : a.lockedUntil with _ | lu
  · simp only [check_login_attempts, h, hb, loginThresholdStep]
    by_cases hc : a.count ≥ maxA
    · rw [if_pos hc]
      exact ⟨_, upd_self _ _ _, rfl, Or.inr (Or.inr rfl)⟩
    · rw [if_neg hc]
      exact ⟨a, upd_self _ _ _, rfl, Or.inl hb⟩
  · simp only [check_login_attempts, h, hb, loginThresholdStep]
    by_cases hnow : now < lu
    · rw [if_pos hnow]
      exact ⟨a, h, rfl, Or.inl (by rw [hb])⟩
    · rw [if_neg hnow]
      by_cases hc : a.count ≥ maxA
      · rw [if_pos hc]
        exact ⟨_, upd_self _ _ _, rfl, Or.inr (Or.inr rfl)⟩
      · rw [if_neg hc]
        exact ⟨_, upd_self _ _ _, rfl, Or.inr (Or.inl rfl)⟩

theorem check_login_inv (st : Nat → Option LoginRec) (uid : Nat)
    (maxA : Int) (dur now : Nat) (hdur : 0 < dur) (hL : loginCountsNonneg st) :
    loginCountsNonneg (check_login_attempts st uid maxA dur now).2 ∧
    loginLocksFresh st (check_login_attempts st uid maxA dur now).2 now := by
  constructor
  · intro k a' h'
    by_cases hk : k = uid
    · subst hk
      rcases h : st k with _ | a
      · rw [show (check_login_attempts st k maxA dur now).2 = st from by
          simp [check_login_attempts, h]] at h'
        exact hL k a' h'
      · obtain ⟨a2, h2, hcnt, _⟩ := check_login_at_uid st k maxA dur now a h
        rw [h2] at h'
        injection h' with he
        subst he
        rw [hcnt]
        exact hL k a h
    · rw [check_login_frame st uid maxA dur now k hk] at h'
      exact hL k a' h'
  · intro k a' b h' hb'
    by_cases hk : k = uid
    · subst hk
      rcases h : st k with _ | a
      · rw [show (check_login_attempts st k maxA dur now).2 = st from by
          simp [check_login_attempts, h]] at h'
        rw [h] at h'
        exact Option.noConfusion h'
      · obtain ⟨a2, h2, _, hlk⟩ := check_login_at_uid st k maxA dur now a h
        rw [h2] at h'
        injection h' with he
        subst he
        rcases hlk with hl | hl | hl
        · exact Or.inl ⟨a, rfl, by rw [← hl]; exact hb'⟩
        · rw [hl] at hb'
          cases hb'
        · rw [hl] at hb'
          injection hb' with he2
          exact Or.inr (by omega)
    · rw [check_login_frame st uid maxA dur now k hk] at h'
      exact Or.inl ⟨a', h', hb'⟩

theorem record_login_inv (st : Nat → Option LoginRec) (uid : Nat)
    (success : Bool) (now : Nat) (hL : loginCountsNonneg st) :
    loginCountsNonneg (record_login_attempt st uid success now) ∧
    loginLocksFresh st (record_login_attempt st uid success now) now := by
  constructor
  · intro k a' h'
    by_cases hk : k = uid
    · subst hk
      cases success with
      | false =>
        rcases hst : st k with _ | a
        · simp [record_login_attempt, hst, upd_self] at h'
          subst h'
          simp
        · have ha := hL k a hst
          simp [record_login_attempt, hst, upd_self] at h'
          subst h'
          simp
          omega
      | true =>
        simp [record_login_attempt, upd_self] at h'
        subst h'
        simp
    · rw [record_login_frame st uid success now k hk] at h'
      exact hL k a' h'
  · intro k a' b h' hb'
    by_cases hk : k = uid
    · subst hk
      cases success with
      | false =>
        rcases hst : st k with _ | a
        · simp [record_login_attempt, hst, upd_self] at h'
          subst h'
          simp at hb'
        · simp [record_login_attempt, hst, upd_self] at h'
          subst h'
          exact Or.inl ⟨a, rfl, hb'⟩
      | true =>
        simp [record_login_attempt, upd_self] at h'
        subst h'
        simp at hb'
    · rw [record_login_frame st uid success now k hk] at h'
      exact Or.inl ⟨a', h', hb'⟩

end BookclubSecurity

namespace BookclubSecurity

theorem spamTierStep_at_uid (st : Nat → Option SpamRec) (uid now : Nat)
    (p : SpamRec) :
    ∃ p', (spamTierStep st uid now p).2 uid = some p' ∧
      (p'.messageCount = p.messageCount ∨ p'.messageCount = p.messageCount + 1 ∨
        p'.messageCount = 1) ∧
      (p'.blockedUntil = p.blockedUntil ∨ p'.blockedUntil = some (now + 300) ∨
        p'.blockedUntil = some (now + 3600) ∨ p'.blockedUntil = some (now + 21600)) := by
  simp only [spamTierStep]
  by_cases h1 : now - p.firstMessage ≤ 60
  · rw [if_pos h1]
    by_cases hc : p.messageCount ≥ 3
    · rw [if_pos hc]
      exact ⟨_, upd_self _ _ _, Or.inl rfl, Or.inr (Or.inl rfl)⟩
    · rw [if_neg hc]
      exact ⟨_, upd_self _ _ _, Or.inr (Or.inl rfl), Or.inl rfl⟩
  · rw [if_neg h1]
    by_cases h2 : now - p.firstMessage ≤ 3600
    · rw [if_pos h2]
      by_cases hc : p.messageCount ≥ 10
      · rw [if_pos hc]
        exact ⟨_, upd_self _ _ _, Or.inl rfl, Or.inr (Or.inr (Or.inl rfl))⟩
      · rw [if_neg hc]
        exact ⟨_, upd_self _ _ _, Or.inr (Or.inl rfl), Or.inl rfl⟩
    · rw [if_neg h2]
      by_cases h3 : now - p.firstMessage ≤ 86400
      · rw [if_pos h3]
        by_cases hc : p.messageCount ≥ 30
        · rw [if_pos hc]
          exact ⟨_, upd_self _ _ _, Or.inl rfl, Or.inr (Or.inr (Or.inr rfl))⟩
        · rw [if_neg hc]
          exact ⟨_, upd_self _ _ _, Or.inr (Or.inl rfl), Or.inl rfl⟩
      · rw [if_neg h3]
        exact ⟨_, upd_self _ _ _, Or.inr (Or.inr (by norm_num)), Or.inl rfl⟩

theorem check_spam_inv (st : Nat → Option SpamRec) (uid now : Nat)
    (hS : spamCountsNonneg st) :
    spamCountsNonneg (check_banned_user_spam st uid now).2 ∧
    spamLocksFresh st (check_banned_user_spam st uid now).2 now := by
  constructor
  · intro k p' h'
    by_cases hk : k = uid
    · subst hk
      rcases hst : st k with _ | p
      · have heq : check_banned_user_spam st k now =
            spamTierStep st k now (freshSpamRec now) := by
          simp only [check_banned_user_spam, hst, Option.getD_none, freshSpamRec]
        obtain ⟨q, hq, hcq, _⟩ := spamTierStep_at_uid st k now (freshSpamRec now)
        rw [heq, hq] at h'
        injection h' with he
        subst he
        rcases hcq with hc | hc | hc <;> rw [hc] <;> simp [freshSpamRec]
      · rcases hbp : p.blockedUntil with _ | b0
        · have heq : check_banned_user_spam st k now = spamTierStep st k now p := by
            simp only [check_banned_user_spam, hst, Option.getD_some, hbp]
          obtain ⟨q, hq, hcq, _⟩ := spamTierStep_at_uid st k now p
          rw [heq, hq] at h'
          injection h' with he
          subst he
          have hp := hS k p hst
          rcases hcq with hc | hc | hc <;> rw [hc] <;> omega
        · by_cases hnb : now < b0
          · have heq : check_banned_user_spam st k now = (false, upd st k p) := by
              simp only [check_banned_user_spam, hst, Option.getD_some, hbp, if_pos hnb]
            rw [heq] at h'
            replace h' : upd st k p k = some p' := h'
            rw [upd_self] at h'
            injection h' with he
            subst he
            exact hS k p hst
          · have heq : check_banned_user_spam st k now = spamTierStep st k now
                { p with blockedUntil := none, messageCount := 0, firstMessage := now } := by
              simp only [check_banned_user_spam, hst, Option.getD_some, hbp, if_neg hnb]
            obtain ⟨q, hq, hcq, _⟩ := spamTierStep_at_uid st k now
              { p with blockedUntil := none, messageCount := 0, firstMessage := now }
            rw [heq, hq] at h'
            injection h' with he
            subst he
            rcases hcq with hc | hc | hc <;> rw [hc] <;> simp
    · rw [check_spam_frame st uid now k hk] at h'
      exact hS k p' h'
  · intro k p' b h' hb'
    by_cases hk : k = uid
    · subst hk
      rcases hst : st k with _ | p
      · have heq : check_banned_user_spam st k now =
            spamTierStep st k now (freshSpamRec now) := by
          simp only [check_banned_user_spam, hst, Option.getD_none, freshSpamRec]
        obtain ⟨q, hq, _, hbq⟩ := spamTierStep_at_uid st k now (freshSpamRec now)
        rw [heq, hq] at h'
        injection h' with he
        subst he
        rcases hbq with h2 | h2 | h2 | h2
        · rw [h2] at hb'
          simp [freshSpamRec] at hb'
        · rw [h2] at hb'
          injection hb' with he2
          exact Or.inr (by omega)
        · rw [h2] at hb'
          injection hb' with he2
          exact Or.inr (by omega)
        · rw [h2] at hb'
          injection hb' with he2
          exact Or.inr (by omega)
      · rcases hbp : p.blockedUntil with _ | b0
        · have heq : check_banned_user_spam st k now = spamTierStep st k now p := by
            simp only [check_banned_user_spam, hst, Option.getD_some, hbp]
          obtain ⟨q, hq, _, hbq⟩ := spamTierStep_at_uid st k now p
          rw [heq, hq] at h'
          injection h' with he
          subst he
          rcases hbq with h2 | h2 | h2 | h2
          · rw [h2, hbp] at hb'
            cases hb'
          · rw [h2] at hb'
            injection hb' with he2
            exact Or.inr (by omega)
          · rw [h2] at hb'
            injection hb' with he2
            exact Or.inr (by omega)
          · rw [h2] at hb'
            injection hb' with he2
            exact Or.inr (by omega)
        · by_cases hnb : now < b0
          · have heq : check_banned_user_spam st k now = (false, upd st k p) := by
              simp only [check_banned_user_spam, hst, Option.getD_some, hbp, if_pos hnb]
            rw [heq] at h'
            replace h' : upd st k p k = some p' := h'
            rw [upd_self] at h'
            injection h' with he
            subst he
            exact Or.inl ⟨p, rfl, hb'⟩
          · have heq : check_banned_user_spam st k now = spamTierStep st k now
                { p with blockedUntil := none, messageCount := 0, firstMessage := now } := by
              simp only [check_banned_user_spam, hst, Option.getD_some, hbp, if_neg hnb]
            obtain ⟨q, hq, _, hbq⟩ := spamTierStep_at_uid st k now
              { p with blockedUntil := none, messageCount := 0, firstMessage := now }
            rw [heq, hq] at h'
            injection h' with he
            subst he
            rcases hbq with h2 | h2 | h2 | h2
            · rw [h2] at hb'
              simp at hb'
            · rw [h2] at hb'
              injection hb' with he2
              exact Or.inr (by omega)
            · rw [h2] at hb'
              injection hb' with he2
              exact Or.inr (by omega)
            · rw [h2] at hb'
              injection hb' with he2
              exact Or.inr (by omega)
    · rw [check_spam_frame st uid now k hk] at h'
      exact Or.inl ⟨p', h', hb'⟩

theorem record_spam_inv (st : Nat → Option SpamRec) (uid now : Nat)
    (hS : spamCountsNonneg st) :
    spamCountsNonneg (record_banned_user_message st uid now) ∧
    spamLocksFresh st (record_banned_user_message st uid now) now := by
  constructor
  · intro k p' h'
    by_cases hk : k = uid
    · subst hk
      rcases hst : st k with _ | p
      · simp [record_banned_user_message, hst, upd_self, freshSpamRec] at h'
        subst h'
        simp
      · have hp := hS k p hst
        simp [record_banned_user_message, hst, upd_self] at h'
        subst h'
        simp
        omega
    · rw [record_spam_frame st uid now k hk] at h'
      exact hS k p' h'
  · intro k p' b h' hb'
    by_cases hk : k = uid
    · subst hk
      rcases hst : st k with _ | p
      · simp [record_banned_user_message, hst, upd_self, freshSpamRec] at h'
        subst h'
        simp at hb'
      · simp [record_banned_user_message, hst, upd_self] at h'
        subst h'
        exact Or.inl ⟨p, rfl, hb'⟩
    · rw [record_spam_frame st uid now k hk] at h'
      exact Or.inl ⟨p', h', hb'⟩

/-- C9. State invariants preserved by every guard operation at any time
`now`, for both policies (the stats query is embedded as a pure read and
returns no map): starting from maps whose stored counts are all
non-negative, the maps after the login check, the login record call, the
spam check and the spam record call again have all counts non-negative;
and any lockout present afterwards either was already stored before the
call or expires strictly after `now` — so whenever an operation sets a
lockout it sets it to a strictly future time (the login guard needs a
positive `lockout_duration`; the source uses 900). -/
theorem guard_state_invariants
    (stL : Nat → Option LoginRec) (stS : Nat → Option SpamRec)
    (uid : Nat) (maxA : Int) (dur now : Nat) (success : Bool)
    (hdur : 0 < dur)
    (hL : loginCountsNonneg stL) (hS : spamCountsNonneg stS) :
    (loginCountsNonneg (check_login_attempts stL uid maxA dur now).2 ∧
      loginLocksFresh stL (check_login_attempts stL uid maxA dur now).2 now) ∧
    (loginCountsNonneg (record_login_attempt stL uid success now) ∧
      loginLocksFresh stL (record_login_attempt stL uid success now) now) ∧
    (spamCountsNonneg (check_banned_user_spam stS uid now).2 ∧
      spamLocksFresh stS (check_banned_user_spam stS uid now).2 now) ∧
    (spamCountsNonneg (record_banned_user_message stS uid now) ∧
      spamLocksFresh stS (record_banned_user_message stS uid now) now) :=
  ⟨check_login_inv stL uid maxA dur now hdur hL,
   record_login_inv stL uid success now hL,
   check_spam_inv stS uid now hS,
   record_spam_inv stS uid now hS⟩

theorem guard_state_invariants_witness :
    (loginCountsNonneg (check_login_attempts emptyLogin 1 3 900 5).2 ∧
      loginLocksFresh emptyLogin (check_login_attempts emptyLogin 1 3 900 5).2 5) ∧
    (loginCountsNonneg (record_login_attempt emptyLogin 1 false 5) ∧
      loginLocksFresh emptyLogin (record_login_attempt emptyLogin 1 false 5) 5) ∧
    (spamCountsNonneg (check_banned_user_spam emptySpam 1 5).2 ∧
      spamLocksFresh emptySpam (check_banned_user_spam emptySpam 1 5).2 5) ∧
    (spamCountsNonneg (record_banned_user_message emptySpam 1 5) ∧
      spamLocksFresh emptySpam (record_banned_user_message emptySpam 1 5) 5) :=
  guard_state_invariants emptyLogin emptySpam 1 3 900 5 false (by decide)
    (by intro uid a h; simp [emptyLogin] at h)
    (by intro uid p h; simp [emptySpam] at h)

end BookclubSecurity
